import Mathlib

/-!
Verification development for the CASAC course portal (Node/Express server).

The code under scrutiny is the authorization + content pipeline:
session guards (middleware/auth.js), the YouTube URL normalizer
(parseYouTube in server.js), the admin CRUD handlers and the login
handler, together with the storage layer's cascade-delete rule
(db/init.js).  Machine strings are modelled as Lean Strings, JavaScript
numbers as an explicit JSNum type (NaN / signed infinity / exact
rational value), and the SQLite-backed tables as in-memory lists.
External collaborators (the WHATWG URL parser used by parseYouTube, the
numeric coercion Number(), bcrypt, SQLite row matching) are modelled
explicitly where the handlers' behaviour depends on them; each such
model is documented at its definition.
-/

namespace Casac

/-! ## Character classes -/

/-- JavaScript whitespace recognised by String.prototype.trim and by
Number() coercion (ASCII subset; exotic Unicode spaces are out of the
model). -/
def wsChar (c : Char) : Bool :=
  c = ' ' || c = '\t' || c = '\n' || c = '\r' || c = '\x0b' || c = '\x0c'

/-- Character class of the regex [a-zA-Z0-9_-] used by parseYouTube's
direct-id fallback. -/
def isIdChar (c : Char) : Bool :=
  ('a' ≤ c && c ≤ 'z') || ('A' ≤ c && c ≤ 'Z') || ('0' ≤ c && c ≤ '9') || c = '_' || c = '-'

/-! ## List-of-characters utilities (JS string primitives) -/

/-- String.prototype.trim: strip leading and trailing whitespace. -/
def trimChars (l : List Char) : List Char :=
  ((l.dropWhile wsChar).reverse.dropWhile wsChar).reverse

/-- String.prototype.split with a single-character separator: JS
"a,b".split(",") = ["a","b"], "".split(",") = [""]. -/
def splitList (sep : Char) : List Char → List (List Char)
  | [] => [[]]
  | c :: cs =>
    if c = sep then [] :: splitList sep cs
    else
      match splitList sep cs with
      | [] => [[c]]
      | p :: ps => (c :: p) :: ps

/-! ## A model of the WHATWG URL parser (external dependency)

parseYouTube calls the Node runtime's URL class.  The model below
covers the http/https URLs the portal deals with: parsing succeeds
exactly on strings starting with "http://" or "https://" followed by a
non-empty authority; the hostname is the authority after the last "@"
and before the first ":", lower-cased; the pathname is what follows up
to "?" or "#" (the WHATWG "/" default for an empty path); the search is
what sits between "?" and "#".  Percent-decoding and non-http schemes
are outside the model (no claim depends on them). -/

structure URLParts where
  hostname : List Char
  pathname : List Char
  search : List Char
  deriving DecidableEq, Repr

/-- Portion of an authority after the last "@" (drops userinfo). -/
def afterUserinfo (a : List Char) : List Char :=
  (splitList '@' a).getLastD []

/-- Characters that continue the authority component. -/
def authChar (c : Char) : Bool :=
  !(c = '/' || c = '?' || c = '#')

/-- Model of the WHATWG URL constructor on a character list (see the
section comment above). -/
def urlParseChars (l : List Char) : Option URLParts :=
  let core? : Option (List Char) :=
    if ("https://".toList).isPrefixOf l then some (l.drop 8)
    else if ("http://".toList).isPrefixOf l then some (l.drop 7)
    else none
  match core? with
  | none => none
  | some core =>
    let authority := core.takeWhile authChar
    let rest := core.dropWhile authChar
    let hostname := ((afterUserinfo authority).takeWhile (fun c => !(c = ':'))).map Char.toLower
    if hostname = [] then none
    else
      let pathname := rest.takeWhile (fun c => !(c = '?' || c = '#'))
      let afterPath := rest.dropWhile (fun c => !(c = '?' || c = '#'))
      let search : List Char :=
        match afterPath with
        | '?' :: t => t.takeWhile (fun c => !(c = '#'))
        | _ => []
      some ⟨hostname, if pathname = [] then ['/'] else pathname, search⟩

/-- URLSearchParams.get(name): first "&"-separated pair whose key (the
part before "=") equals name; empty pairs are skipped; a key with no
"=" has value "". Percent-decoding is outside the model. -/
def getParam (search : List Char) (name : List Char) : Option (List Char) :=
  let pairs := (splitList '&' search).filter (fun p => !p.isEmpty)
  match pairs.find? (fun p => p.takeWhile (fun c => !(c = '=')) = name) with
  | some p =>
    some (match p.dropWhile (fun c => !(c = '=')) with
          | _ :: t => t
          | [] => [])
  | none => none

/-! ## parseYouTube (src/unnamed/part_001, lines 449-483) -/

/-- pathname.split("/").filter(Boolean). -/
def pathSegments (p : List Char) : List (List Char) :=
  (splitList '/' p).filter (fun s => !s.isEmpty)

/-- parts[parts.indexOf(m) + 1] when m occurs in parts (first
occurrence), else none. -/
def segAfter : List (List Char) → List Char → Option (List Char)
  | [], _ => none
  | x :: xs, m => if x = m then xs.head? else segAfter xs m

/-- The guarded access pattern `i >= 0 && parts[i + 1]` of the source:
a marker hit counts only when the following segment exists and is
truthy (non-empty). -/
def segAfterNE (parts : List (List Char)) (m : List Char) : Option (List Char) :=
  match segAfter parts m with
  | some t => if t.isEmpty then none else some t
  | none => none

/-- The youtube.com marker scan of parseYouTube: embed, then shorts,
then live, each via the guarded `indexOf`/next-segment pattern. -/
def ytMarkers (parts : List (List Char)) : Option (List Char) :=
  match segAfterNE parts ("embed".toList) with
  | some t => some t
  | none =>
    match segAfterNE parts ("shorts".toList) with
    | some t => some t
    | none => segAfterNE parts ("live".toList)

/-- hostname.replace(/^www\./, "").toLowerCase(). -/
def normHost (h : List Char) : List Char :=
  (if ("www.".toList).isPrefixOf h then h.drop 4 else h).map Char.toLower

/-- The direct-id fallback regex /^[a-zA-Z0-9_-]{11}$/.test. -/
def isIdToken (l : List Char) : Bool :=
  l.length == 11 && l.all isIdChar

/-- Body of parseYouTube's try block once the URL has parsed:
youtu.be takes the first non-empty path segment; hosts ending in
youtube.com prefer a truthy v query parameter and otherwise run the
marker scan; any other host is null. -/
def ytFromURL (u : URLParts) : Option (List Char) :=
  let host := normHost u.hostname
  if host = "youtu.be".toList then
    match (pathSegments u.pathname).head? with
    | some x => if x.isEmpty then none else some x
    | none => none
  else if ("youtube.com".toList).isSuffixOf host then
    match getParam u.search ['v'] with
    | some v => if v.isEmpty then ytMarkers (pathSegments u.pathname) else some v
    | none => ytMarkers (pathSegments u.pathname)
  else none

/-- parseYouTube from src/unnamed/part_001 on a character list:
null/empty guard, trim, URL parse, then the host dispatch of
ytFromURL; URL parse failure falls back to the 11-character direct-id
test; anything else is null. -/
def parseYouTubeChars (l : List Char) : Option (List Char) :=
  if l.isEmpty then none
  else
    let raw := trimChars l
    if raw.isEmpty then none
    else
      match urlParseChars raw with
      | some u => ytFromURL u
      | none => if isIdToken raw then some raw else none

/-- parseYouTube on a String argument. -/
def parseYouTube (s : String) : Option String :=
  (parseYouTubeChars s.toList).map String.mk

/-- parseYouTube on a nullable argument: `if (!url) return null`
covers null/undefined before any string operation. -/
def parseYouTubeOpt (s : Option String) : Option String :=
  match s with
  | none => none
  | some t => parseYouTube t

/-! ## JavaScript numbers (external dependency)

The handlers coerce request fields with Number().  A JS number is NaN,
a signed infinity, or a finite value; finite values are modelled as
exact rationals (the handlers only compare and store them, so IEEE-754
rounding does not matter to any claim). -/

inductive JSNum where
  | nan
  | inf (neg : Bool)
  | val (q : ℚ)
  deriving DecidableEq, Repr

/-- Value of a decimal digit character. -/
def digitVal (c : Char) : ℕ := c.toNat - '0'.toNat

/-- A non-empty all-decimal-digit run, as a natural number. -/
def decDigits? (l : List Char) : Option ℕ :=
  if l.isEmpty then none
  else if l.all Char.isDigit then some (l.foldl (fun a c => a * 10 + digitVal c) 0)
  else none

/-- Hex digit test for the 0x literal form. -/
def isHexDigit (c : Char) : Bool :=
  c.isDigit || ('a' ≤ c && c ≤ 'f') || ('A' ≤ c && c ≤ 'F')

/-- Value of a hex digit character. -/
def hexVal (c : Char) : ℕ :=
  if c.isDigit then digitVal c
  else if 'a' ≤ c && c ≤ 'f' then c.toNat - 'a'.toNat + 10
  else c.toNat - 'A'.toNat + 10

/-- A non-empty all-hex-digit run, as a natural number. -/
def hexDigits? (l : List Char) : Option ℕ :=
  if l.isEmpty then none
  else if l.all isHexDigit then some (l.foldl (fun a c => a * 16 + hexVal c) 0)
  else none

/-- Signed exponent digits after the e/E of a decimal literal; must
consume the whole remainder. -/
def signedDigits? (l : List Char) : Option ℤ :=
  match l with
  | '+' :: d => (decDigits? d).map Int.ofNat
  | '-' :: d => (decDigits? d).map (fun n => -(n : ℤ))
  | d => (decDigits? d).map Int.ofNat

/-- Exponent part: empty means 10^0, else e/E followed by signed
digits. -/
def expPart? (l : List Char) : Option ℤ :=
  match l with
  | [] => some 0
  | 'e' :: t => signedDigits? t
  | 'E' :: t => signedDigits? t
  | _ => none

/-- Ten to the k by plain structural recursion (kernel-evaluable form
for the decimal scaling below). -/
def pow10 : ℕ → ℕ
  | 0 => 1
  | n + 1 => 10 * pow10 n

/-- Unsigned JS decimal literal: digits [. digits] [exponent], with at
least one digit in the integer or fraction part ("1.", ".5", "1e3" are
all valid; "." and "" are not).  The value (int.frac)·10^e is built as
an exact rational via mkRat. -/
def parseDecimal (l : List Char) : Option ℚ :=
  let intPart := l.takeWhile Char.isDigit
  let rest1 := l.dropWhile Char.isDigit
  let fracPart : List Char :=
    match rest1 with
    | '.' :: t => t.takeWhile Char.isDigit
    | _ => []
  let rest2 : List Char :=
    match rest1 with
    | '.' :: t => t.dropWhile Char.isDigit
    | _ => rest1
  if intPart.isEmpty && fracPart.isEmpty then none
  else
    match expPart? rest2 with
    | none => none
    | some e =>
      let m : ℤ := ((intPart.foldl (fun a c => a * 10 + digitVal c) 0) *
        pow10 fracPart.length + fracPart.foldl (fun a c => a * 10 + digitVal c) 0 : ℕ)
      if 0 ≤ e then some (mkRat (m * (pow10 e.toNat : ℕ)) (pow10 fracPart.length))
      else some (mkRat m (pow10 fracPart.length * pow10 (-e).toNat))

/-- Number() on a trimmed non-empty character list: Infinity forms,
then the unsigned 0x/0o/0b literals, then an optionally signed decimal
literal; anything else is NaN. -/
def parseNumChars (t : List Char) : JSNum :=
  if t = "Infinity".toList || t = "+Infinity".toList then .inf false
  else if t = "-Infinity".toList then .inf true
  else
    match t with
    | '0' :: 'x' :: d => match hexDigits? d with | some n => .val n | none => .nan
    | '0' :: 'X' :: d => match hexDigits? d with | some n => .val n | none => .nan
    | _ =>
      let signed : Option ℚ :=
        match t with
        | '-' :: r => (parseDecimal r).map Neg.neg
        | '+' :: r => parseDecimal r
        | r => parseDecimal r
      match signed with
      | some q => .val q
      | none => .nan

/-- Number() applied to a string: trim, empty means 0, else parse.
(The 0o/0b forms reduce to NaN here; no portal input uses them.) -/
def jsNumber (s : String) : JSNum :=
  let t := trimChars s.toList
  if t.isEmpty then .val 0 else parseNumChars t

/-- The handler idiom Number(req.body.x || 0): a missing field or the
empty string (the only falsy strings) defaults to 0 before coercion. -/
def coerceNum (o : Option String) : JSNum :=
  match o with
  | none => .val 0
  | some s => if s = "" then .val 0 else jsNumber s

/-- String(req.body.x || ""): missing fields become "". -/
def strField (o : Option String) : String :=
  match o with
  | none => ""
  | some s => s

/-- String.prototype.trim on a String. -/
def strTrim (s : String) : String := String.mk (trimChars s.toList)

/-- String.prototype.toLowerCase (ASCII model). -/
def strLower (s : String) : String := String.mk (s.toList.map Char.toLower)

/-! ## Session guards (src/middleware/auth.js, via src/unnamed/part_000) -/

/-- The (id, email, role) record stored in req.session.user. -/
structure SessionUser where
  id : ℤ
  email : String
  role : String
  deriving DecidableEq, Repr

/-- req.session: user is null/undefined until login establishes it. -/
structure Sess where
  user : Option SessionUser
  deriving DecidableEq, Repr

/-- A numeric value as SQLite can actually hold it in the NOT NULL
sort_order column: a finite numeric or a signed infinity (stored as an
out-of-range REAL).  There is no NaN case: SQLite converts a bound NaN
to NULL, which the NOT NULL constraint rejects — see bindSort. -/
inductive SQLNum where
  | inf (neg : Bool)
  | val (q : ℚ)
  deriving DecidableEq, Repr

/-- A row of the modules table.  The sort column holds the stored
numeric (never NaN, see SQLNum); ids are assigned by the autoincrement
counter of the state. -/
structure ModuleRow where
  id : ℤ
  title : String
  description : String
  sort : SQLNum
  deriving DecidableEq, Repr

/-- A row of the lessons table (module_id references modules.id, with
ON DELETE CASCADE per db/init.js). -/
structure LessonRow where
  id : ℤ
  module_id : ℤ
  title : String
  content_md : String
  youtube_url : String
  sort : SQLNum
  deriving DecidableEq, Repr

/-- A row of the users table. -/
structure UserRow where
  id : ℤ
  email : String
  password_hash : String
  role : String
  deriving DecidableEq, Repr

/-- The persistent store: the three tables plus autoincrement
counters. -/
structure DB where
  users : List UserRow
  modules : List ModuleRow
  lessons : List LessonRow
  nextModuleId : ℤ
  nextLessonId : ℤ
  deriving DecidableEq, Repr

/-- Form values echoed back by the admin module form (mode "new"
carries no id). -/
structure ModuleForm where
  id : Option JSNum
  title : String
  description : String
  sort : JSNum
  deriving DecidableEq, Repr

/-- Form values echoed back by the admin lesson form. -/
structure LessonForm where
  title : String
  youtube_url : String
  sort : JSNum
  content_md : String
  deriving DecidableEq, Repr

/-- Terminal HTTP responses the modelled handlers produce.
serverError is the Express default error handler's 500 answer when a
handler throws (here: a storage statement failing a constraint). -/
inductive Response where
  | redirect (loc : String)
  | notFound (body : String)
  | forbidden (body : String)
  | serverError
  | loginPage (unauthorized : Bool) (error : Option String)
  | moduleFormPage (mode : String) (form : ModuleForm) (error : Option String)
  | lessonFormPage (mode : String) (moduleId : Option ℤ) (form : LessonForm) (error : Option String)
  | modulePage (m : ModuleRow) (lessons : List LessonRow)
  | lessonPage (l : LessonRow) (moduleTitle : String) (videoId : Option String)
  | adminPage (modules : List ModuleRow)
  deriving DecidableEq, Repr

/-- Result of a guard: fall through to the handler, or answer at
once. -/
inductive GuardResult where
  | next
  | halt (r : Response)
  deriving DecidableEq, Repr

/-- requireAuth: `if (!req.session || !req.session.user) return
res.redirect("/login"); next();`. -/
def requireAuth (sess : Option Sess) : GuardResult :=
  match sess with
  | none => .halt (.redirect "/login")
  | some s =>
    match s.user with
    | none => .halt (.redirect "/login")
    | some _ => .next

/-- requireAdmin: the same session check, then
`if (req.session.user.role !== "admin") return
res.status(403).send("Forbidden"); next();`. -/
def requireAdmin (sess : Option Sess) : GuardResult :=
  match sess with
  | none => .halt (.redirect "/login")
  | some s =>
    match s.user with
    | none => .halt (.redirect "/login")
    | some u => if u.role ≠ "admin" then .halt (.forbidden "Forbidden") else .next

/-- Express dispatch of a guarded route: the handler body runs only
when the guard called next(). -/
def runGuarded (g : Option Sess → GuardResult) (h : Option Sess → Response)
    (sess : Option Sess) : Response :=
  match g sess with
  | .next => h sess
  | .halt r => r

/-! ## Storage-layer row matching (external dependency)

better-sqlite3 binds a JS number as a SQLite numeric; SQLite has no
NaN, so NaN binds as NULL, which `id = ?` never matches; infinities are
out-of-range reals that equal no integer id; a finite value matches a
row under numeric equality. -/

/-- Does the bound parameter n match an integer id column value? -/
def numMatches (n : JSNum) (i : ℤ) : Bool :=
  match n with
  | .val q => q = (i : ℚ)
  | _ => false

/-- Binding a JS number into the NOT NULL sort_order column
(db/init.js: sort_order INTEGER NOT NULL): a finite value or an
infinity binds as a numeric; NaN binds as NULL, the NOT NULL
constraint rejects it and the statement throws — modelled as no
storable value. -/
def bindSort : JSNum → Option SQLNum
  | .nan => none
  | .inf b => some (.inf b)
  | .val q => some (.val q)

/-- SELECT ... FROM modules WHERE id=? (first match; ids are unique by
construction). -/
def findModule (st : DB) (n : JSNum) : Option ModuleRow :=
  st.modules.find? (fun m => numMatches n m.id)

/-- SELECT ... FROM lessons WHERE id=?. -/
def findLesson (st : DB) (n : JSNum) : Option LessonRow :=
  st.lessons.find? (fun l => numMatches n l.id)

/-- Lessons of a module (the WHERE module_id=? filter; presentation
ORDER BY is not modelled — no claim depends on it). -/
def lessonsOf (st : DB) (mid : ℤ) : List LessonRow :=
  st.lessons.filter (fun l => l.module_id == mid)

/-! ## Request model -/

/-- req.body for the modelled POST handlers: urlencoded fields are
present strings or missing. -/
structure ReqBody where
  title : Option String := none
  description : Option String := none
  sort_order : Option String := none
  youtube_url : Option String := none
  content_md : Option String := none
  email : Option String := none
  password : Option String := none
  deriving DecidableEq, Repr

/-! ## Handlers (src/unnamed/part_001; identical logic in
src/server.js except for the parseYouTube variant) -/

/-- POST /login.  The bcrypt comparison is an external primitive and
is passed in as a function; the handler is proved for every such
function.  Returns the session state after the request and the
response. -/
def loginHandler (compare : String → String → Bool) (st : DB)
    (sess : Sess) (body : ReqBody) : Sess × Response :=
  let email := strLower (strTrim (strField body.email))
  let password := strField body.password
  match st.users.find? (fun u => u.email == email) with
  | none => (sess, .loginPage true (some "Invalid email or password."))
  | some u =>
    if compare password u.password_hash then
      ({ user := some ⟨u.id, u.email, u.role⟩ }, .redirect "/")
    else (sess, .loginPage true (some "Invalid email or password."))

/-- GET /modules/:id (after requireAuth). -/
def moduleViewHandler (st : DB) (idParam : String) : Response :=
  let n := jsNumber idParam
  match findModule st n with
  | none => .notFound "Module not found"
  | some m => .modulePage m (lessonsOf st m.id)

/-- GET /lessons/:id (after requireAuth): the JOIN with modules means
a lesson whose module is gone yields no row; the video id comes from
parseYouTube on the stored URL. -/
def lessonViewHandler (st : DB) (idParam : String) : Response :=
  let n := jsNumber idParam
  match findLesson st n with
  | none => .notFound "Lesson not found"
  | some l =>
    match st.modules.find? (fun m => m.id == l.module_id) with
    | none => .notFound "Lesson not found"
    | some m => .lessonPage l m.title (parseYouTube l.youtube_url)

/-- POST /admin/modules/new (after requireAdmin): trim title and
description, coerce sort_order; an empty title re-renders the form
with the parsed values and an inline error and mutates nothing;
otherwise run the INSERT.  When the coerced sort is NaN the INSERT
binds it as NULL, the NOT NULL sort_order constraint fires, the
statement throws and Express answers 500 with nothing inserted
(bindSort none); otherwise one row is appended and the handler
redirects. -/
def createModuleHandler (st : DB) (body : ReqBody) : DB × Response :=
  let title := strTrim (strField body.title)
  let description := strTrim (strField body.description)
  let sort := coerceNum body.sort_order
  if title = "" then
    (st, .moduleFormPage "new" ⟨none, title, description, sort⟩ (some "Title is required."))
  else
    match bindSort sort with
    | none => (st, .serverError)
    | some sq =>
      ({ st with
          modules := st.modules ++ [⟨st.nextModuleId, title, description, sq⟩],
          nextModuleId := st.nextModuleId + 1 },
       .redirect "/admin")

/-- UPDATE modules SET title=?, description=?, sort_order=? WHERE
id=?. -/
def updateModuleRows (st : DB) (n : JSNum) (title description : String)
    (sort : SQLNum) : DB :=
  { st with
    modules := st.modules.map (fun m =>
      if numMatches n m.id then { m with title := title, description := description, sort := sort }
      else m) }

/-- POST /admin/modules/:id/edit (after requireAdmin).  A NaN sort
value makes the UPDATE throw on the NOT NULL sort_order constraint
(bindSort none), answered as a 500 with nothing changed. -/
def editModuleHandler (st : DB) (idParam : String) (body : ReqBody) : DB × Response :=
  let n := jsNumber idParam
  let title := strTrim (strField body.title)
  let description := strTrim (strField body.description)
  let sort := coerceNum body.sort_order
  if title = "" then
    (st, .moduleFormPage "edit" ⟨some n, title, description, sort⟩ (some "Title is required."))
  else
    match bindSort sort with
    | none => (st, .serverError)
    | some sq => (updateModuleRows st n title description sq, .redirect "/admin")

/-- DELETE FROM modules WHERE id=?, with the storage layer's ON DELETE
CASCADE rule of db/init.js: lessons referencing a deleted module id
are removed with it. -/
def deleteModuleCascade (st : DB) (n : JSNum) : DB :=
  let removed := (st.modules.filter (fun m => numMatches n m.id)).map (·.id)
  { st with
    modules := st.modules.filter (fun m => !(numMatches n m.id)),
    lessons := st.lessons.filter (fun l => !(removed.contains l.module_id)) }

/-- POST /admin/modules/:id/delete (after requireAdmin). -/
def deleteModuleHandler (st : DB) (idParam : String) : DB × Response :=
  (deleteModuleCascade st (jsNumber idParam), .redirect "/admin")

/-- POST /admin/modules/:moduleId/lessons/new (after requireAdmin). -/
def createLessonHandler (st : DB) (moduleIdParam : String) (body : ReqBody) :
    DB × Response :=
  let n := jsNumber moduleIdParam
  match findModule st n with
  | none => (st, .notFound "Module not found")
  | some m =>
    let title := strTrim (strField body.title)
    let youtube_url := strTrim (strField body.youtube_url)
    let sort := coerceNum body.sort_order
    let content_md := strTrim (strField body.content_md)
    if title = "" then
      (st, .lessonFormPage "new" (some m.id) ⟨title, youtube_url, sort, content_md⟩
            (some "Title is required."))
    else
      match bindSort sort with
      | none => (st, .serverError)
      | some sq =>
        ({ st with
            lessons := st.lessons ++ [⟨st.nextLessonId, m.id, title, content_md, youtube_url, sq⟩],
            nextLessonId := st.nextLessonId + 1 },
         .redirect "/admin")

/-- UPDATE lessons SET ... WHERE id=?. -/
def updateLessonRows (st : DB) (n : JSNum) (title youtube_url : String)
    (sort : SQLNum) (content_md : String) : DB :=
  { st with
    lessons := st.lessons.map (fun l =>
      if numMatches n l.id then
        { l with title := title, youtube_url := youtube_url, sort := sort, content_md := content_md }
      else l) }

/-- POST /admin/lessons/:id/edit (after requireAdmin). -/
def editLessonHandler (st : DB) (idParam : String) (body : ReqBody) : DB × Response :=
  let n := jsNumber idParam
  match findLesson st n with
  | none => (st, .notFound "Lesson not found")
  | some l =>
    let moduleId := (st.modules.find? (fun m => m.id == l.module_id)).map (·.id)
    let title := strTrim (strField body.title)
    let youtube_url := strTrim (strField body.youtube_url)
    let sort := coerceNum body.sort_order
    let content_md := strTrim (strField body.content_md)
    if title = "" then
      (st, .lessonFormPage "edit" moduleId ⟨title, youtube_url, sort, content_md⟩
            (some "Title is required."))
    else
      match bindSort sort with
      | none => (st, .serverError)
      | some sq => (updateLessonRows st n title youtube_url sq content_md, .redirect "/admin")

/-- POST /admin/lessons/:id/delete (after requireAdmin): a missing
lesson id just redirects. -/
def deleteLessonHandler (st : DB) (idParam : String) : DB × Response :=
  let n := jsNumber idParam
  match findLesson st n with
  | none => (st, .redirect "/admin")
  | some _ =>
    ({ st with lessons := st.lessons.filter (fun l => !(numMatches n l.id)) },
     .redirect "/admin")

/-! ## Sample data used by the concrete witnesses -/

/-- A small concrete store: one admin user, one module, one lesson. -/
def sampleDB : DB :=
  ⟨[⟨1, "admin@course.com", "h1", "admin"⟩],
   [⟨1, "Module 1", "intro", .val 1⟩],
   [⟨1, 1, "Lesson 1", "# hi", "", .val 1⟩],
   2, 2⟩

/-! ## Generic list lemmas -/

theorem takeWhile_of_all {α} (p : α → Bool) :
    ∀ l : List α, (∀ x ∈ l, p x = true) → l.takeWhile p = l
  | [], _ => rfl
  | a :: t, h => by
    simp only [List.takeWhile, h a (List.mem_cons_self a t)]
    exact congrArg (a :: ·) (takeWhile_of_all p t fun x hx => h x (List.mem_cons_of_mem a hx))

theorem dropWhile_of_all {α} (p : α → Bool) :
    ∀ l : List α, (∀ x ∈ l, p x = true) → l.dropWhile p = []
  | [], _ => rfl
  | a :: t, h => by
    simp only [List.dropWhile, h a (List.mem_cons_self a t)]
    exact dropWhile_of_all p t fun x hx => h x (List.mem_cons_of_mem a hx)

theorem dropWhile_of_none {α} (p : α → Bool) (l : List α)
    (h : ∀ x ∈ l, p x = false) : l.dropWhile p = l := by
  cases l with
  | nil => rfl
  | cons a t => simp [List.dropWhile, h a (List.mem_cons_self a t)]

theorem takeWhile_middle {α} (p : α → Bool) (a : List α) (c : α) (b : List α)
    (ha : ∀ x ∈ a, p x = true) (hc : p c = false) :
    (a ++ c :: b).takeWhile p = a := by
  induction a with
  | nil => simp [List.takeWhile, hc]
  | cons x t ih =>
    simp only [List.cons_append, List.takeWhile, ha x (List.mem_cons_self x t)]
    exact congrArg (x :: ·) (ih fun y hy => ha y (List.mem_cons_of_mem x hy))

theorem dropWhile_middle {α} (p : α → Bool) (a : List α) (c : α) (b : List α)
    (ha : ∀ x ∈ a, p x = true) (hc : p c = false) :
    (a ++ c :: b).dropWhile p = c :: b := by
  induction a with
  | nil => simp [List.dropWhile, hc]
  | cons x t ih =>
    simp only [List.cons_append, List.dropWhile, ha x (List.mem_cons_self x t)]
    exact ih fun y hy => ha y (List.mem_cons_of_mem x hy)

theorem drop_len_append {α} : ∀ (a b : List α), (a ++ b).drop a.length = b
  | [], _ => rfl
  | _ :: t, b => drop_len_append t b

theorem isPrefixOf_append_self : ∀ (a b : List Char), a.isPrefixOf (a ++ b) = true
  | [], _ => by simp [List.isPrefixOf]
  | c :: t, b => by simp [List.isPrefixOf, isPrefixOf_append_self t b]

theorem mem_of_isPrefixOf {a l : List Char} (h : a.isPrefixOf l = true) :
    ∀ x ∈ a, x ∈ l := by
  induction a generalizing l with
  | nil => intro x hx; cases hx
  | cons c t ih =>
    cases l with
    | nil => cases h
    | cons d m =>
      simp only [List.isPrefixOf, Bool.and_eq_true, beq_iff_eq] at h
      intro x hx
      rcases List.mem_cons.mp hx with hx | hx
      · exact hx ▸ h.1 ▸ List.mem_cons_self d m
      · exact List.mem_cons_of_mem d (ih h.2 x hx)

theorem splitList_of_all (sep : Char) :
    ∀ l : List Char, (∀ x ∈ l, x ≠ sep) → splitList sep l = [l]
  | [], _ => rfl
  | c :: t, h => by
    simp only [splitList, if_neg (h c (List.mem_cons_self c t))]
    rw [splitList_of_all sep t fun x hx => h x (List.mem_cons_of_mem c hx)]

theorem splitList_middle (sep : Char) (a b : List Char)
    (h : ∀ x ∈ a, x ≠ sep) : splitList sep (a ++ sep :: b) = a :: splitList sep b := by
  induction a with
  | nil => simp [splitList]
  | cons c t ih =>
    simp only [List.cons_append, splitList, if_neg (h c (List.mem_cons_self c t)),
      List.append_eq]
    rw [ih fun x hx => h x (List.mem_cons_of_mem c hx)]

theorem trimChars_of_all (l : List Char) (h : ∀ x ∈ l, wsChar x = false) :
    trimChars l = l := by
  unfold trimChars
  rw [dropWhile_of_none wsChar l h]
  rw [dropWhile_of_none wsChar l.reverse fun x hx => h x (List.mem_reverse.mp hx)]
  exact List.reverse_reverse l

/-! ## Character class facts -/

theorem idChar_ne {c : Char} (h : isIdChar c = true) (d : Char)
    (hd : isIdChar d = false) : c ≠ d := by
  intro e; rw [e, hd] at h; cases h

theorem idChar_not_ws {c : Char} (h : isIdChar c = true) : wsChar c = false := by
  simp only [wsChar, Bool.or_eq_false_iff, decide_eq_false_iff_not]
  exact ⟨⟨⟨⟨⟨idChar_ne h ' ' (by decide), idChar_ne h '\t' (by decide)⟩,
    idChar_ne h '\n' (by decide)⟩, idChar_ne h '\r' (by decide)⟩,
    idChar_ne h '\x0b' (by decide)⟩, idChar_ne h '\x0c' (by decide)⟩

theorem idChar_auth {c : Char} (h : isIdChar c = true) : authChar c = true := by
  simp only [authChar, Bool.or_eq_false_iff, Bool.not_eq_true',
    decide_eq_false_iff_not]
  exact ⟨⟨idChar_ne h '/' (by decide), idChar_ne h '?' (by decide)⟩,
    idChar_ne h '#' (by decide)⟩

/-! ## String bridge lemmas -/

theorem toList_append (s t : String) : (s ++ t).toList = s.toList ++ t.toList := rfl

theorem mk_toList (s : String) : String.mk s.toList = s := rfl

theorem toList_mk (l : List Char) : (String.mk l).toList = l := rfl

/-! ## Evaluation lemmas for parseYouTube -/

theorem isEmpty_false_of_ne {α} {l : List α} (h : l ≠ []) : l.isEmpty = false := by
  cases l with
  | nil => exact absurd rfl h
  | cons a t => rfl

theorem urlParseChars_build (H R : List Char)
    (hH : ∀ c ∈ H, authChar c = true) (hHne : H ≠ [])
    (hHat : ∀ c ∈ H, c ≠ '@') (hHcol : ∀ c ∈ H, c ≠ ':')
    (hHlow : H.map Char.toLower = H) :
    urlParseChars ("https://".toList ++ (H ++ '/' :: R)) =
      some ⟨H, '/' :: R.takeWhile (fun c => !(c = '?' || c = '#')),
        match R.dropWhile (fun c => !(c = '?' || c = '#')) with
        | '?' :: t => t.takeWhile (fun c => !(c = '#'))
        | _ => []⟩ := by
  have h8 : ("https://".toList : List Char).length = 8 := by decide
  have hdrop : ("https://".toList ++ (H ++ '/' :: R)).drop 8 = H ++ '/' :: R := by
    rw [← h8]; exact drop_len_append _ _
  have htake : (H ++ '/' :: R).takeWhile authChar = H :=
    takeWhile_middle authChar H '/' R hH (by decide)
  have hdropA : (H ++ '/' :: R).dropWhile authChar = '/' :: R :=
    dropWhile_middle authChar H '/' R hH (by decide)
  have hAU : afterUserinfo H = H := by
    unfold afterUserinfo
    rw [splitList_of_all '@' H hHat]
    rfl
  have hcol : H.takeWhile (fun c => !(c = ':')) = H := by
    apply takeWhile_of_all
    intro x hx
    simp [hHcol x hx]
  unfold urlParseChars
  rw [if_pos (isPrefixOf_append_self _ _)]
  simp only [hdrop, htake, hdropA, hAU, hcol, hHlow]
  rw [if_neg hHne]
  simp only [List.takeWhile, List.dropWhile]
  simp

theorem parseYT_chars_be (X : List Char) (hX : ∀ c ∈ X, isIdChar c = true)
    (h0 : X ≠ []) :
    parseYouTubeChars ("https://youtu.be/".toList ++ X) = some X := by
  have hkey : "https://youtu.be/".toList ++ X =
      "https://".toList ++ ("youtu.be".toList ++ '/' :: X) := by
    have h1 : "https://youtu.be/".toList =
        "https://".toList ++ ("youtu.be".toList ++ ['/']) := by decide
    rw [h1]; simp [List.append_assoc]
  rw [hkey]
  have hne : ("https://".toList : List Char) ++ ("youtu.be".toList ++ '/' :: X) ≠ [] := by
    simp
  have hws : ∀ c ∈ ("https://".toList : List Char) ++ ("youtu.be".toList ++ '/' :: X),
      wsChar c = false := by
    intro c hc
    rcases List.mem_append.mp hc with h | h
    · exact (by decide : ∀ c ∈ ("https://".toList : List Char), wsChar c = false) c h
    · rcases List.mem_append.mp h with h | h
      · exact (by decide : ∀ c ∈ ("youtu.be".toList : List Char), wsChar c = false) c h
      · rcases List.mem_cons.mp h with h | h
        · rw [h]; decide
        · exact idChar_not_ws (hX c h)
  have htrim := trimChars_of_all _ hws
  have hurl := urlParseChars_build ("youtu.be".toList) X
    (by decide) (by decide) (by decide) (by decide) (by decide)
  have hXtake : X.takeWhile (fun c => !(c = '?' || c = '#')) = X := by
    apply takeWhile_of_all
    intro x hx
    simp [idChar_ne (hX x hx) '?' (by decide), idChar_ne (hX x hx) '#' (by decide)]
  have hXdrop : X.dropWhile (fun c => !(c = '?' || c = '#')) = [] := by
    apply dropWhile_of_all
    intro x hx
    simp [idChar_ne (hX x hx) '?' (by decide), idChar_ne (hX x hx) '#' (by decide)]
  unfold parseYouTubeChars
  rw [isEmpty_false_of_ne hne]
  simp only [Bool.false_eq_true, if_false, htrim]
  rw [isEmpty_false_of_ne hne]
  simp only [Bool.false_eq_true, if_false, hurl, hXtake, hXdrop]
  unfold ytFromURL
  have hhost : normHost ("youtu.be".toList) = "youtu.be".toList := by decide
  simp only [hhost, if_pos rfl]
  have hseg : pathSegments ('/' :: X) = [X] := by
    unfold pathSegments
    have : ('/' :: X : List Char) = [] ++ '/' :: X := rfl
    rw [this, splitList_middle '/' [] X (by intro x hx; cases hx),
      splitList_of_all '/' X (fun x hx => idChar_ne (hX x hx) '/' (by decide))]
    simp [isEmpty_false_of_ne h0]
  rw [hseg]
  simp [isEmpty_false_of_ne h0]

theorem parseYT_chars_watch (X : List Char) (hX : ∀ c ∈ X, isIdChar c = true)
    (h0 : X ≠ []) :
    parseYouTubeChars ("https://www.youtube.com/watch?v=".toList ++ X) = some X := by
  have hkey : "https://www.youtube.com/watch?v=".toList ++ X =
      "https://".toList ++ ("www.youtube.com".toList ++ '/' ::
        ("watch".toList ++ '?' :: 'v' :: '=' :: X)) := by
    have h1 : "https://www.youtube.com/watch?v=".toList =
        "https://".toList ++ ("www.youtube.com".toList ++ '/' ::
          ("watch".toList ++ '?' :: 'v' :: '=' :: ([] : List Char))) := by decide
    rw [h1]; simp [List.append_assoc]
  rw [hkey]
  have hne : ("https://".toList : List Char) ++ ("www.youtube.com".toList ++ '/' ::
      ("watch".toList ++ '?' :: 'v' :: '=' :: X)) ≠ [] := by simp
  have hws : ∀ c ∈ ("https://".toList : List Char) ++ ("www.youtube.com".toList ++ '/' ::
      ("watch".toList ++ '?' :: 'v' :: '=' :: X)), wsChar c = false := by
    intro c hc
    rcases List.mem_append.mp hc with h | h
    · exact (by decide : ∀ c ∈ ("https://".toList : List Char), wsChar c = false) c h
    rcases List.mem_append.mp h with h | h
    · exact (by decide : ∀ c ∈ ("www.youtube.com".toList : List Char), wsChar c = false) c h
    rcases List.mem_cons.mp h with h | h
    · rw [h]; decide
    rcases List.mem_append.mp h with h | h
    · exact (by decide : ∀ c ∈ ("watch".toList : List Char), wsChar c = false) c h
    rcases List.mem_cons.mp h with h | h
    · rw [h]; decide
    rcases List.mem_cons.mp h with h | h
    · rw [h]; decide
    rcases List.mem_cons.mp h with h | h
    · rw [h]; decide
    · exact idChar_not_ws (hX c h)
  have htrim := trimChars_of_all _ hws
  have hurl := urlParseChars_build ("www.youtube.com".toList)
    ("watch".toList ++ '?' :: 'v' :: '=' :: X)
    (by decide) (by decide) (by decide) (by decide) (by decide)
  have hRtake : ("watch".toList ++ '?' :: 'v' :: '=' :: X).takeWhile
      (fun c => !(c = '?' || c = '#')) = "watch".toList :=
    takeWhile_middle _ _ '?' _ (by decide) (by decide)
  have hRdrop : ("watch".toList ++ '?' :: 'v' :: '=' :: X).dropWhile
      (fun c => !(c = '?' || c = '#')) = '?' :: 'v' :: '=' :: X :=
    dropWhile_middle _ _ '?' _ (by decide) (by decide)
  have hsearch : ('v' :: '=' :: X).takeWhile (fun c => !(c = '#')) = 'v' :: '=' :: X := by
    apply takeWhile_of_all
    intro x hx
    rcases List.mem_cons.mp hx with h | h
    · rw [h]; decide
    rcases List.mem_cons.mp h with h | h
    · rw [h]; decide
    · simp [idChar_ne (hX x h) '#' (by decide)]
  unfold parseYouTubeChars
  rw [isEmpty_false_of_ne hne]
  simp only [Bool.false_eq_true, if_false, htrim]
  rw [isEmpty_false_of_ne hne]
  simp only [Bool.false_eq_true, if_false, hurl, hRtake, hRdrop, hsearch]
  unfold ytFromURL
  have hhost : normHost ("www.youtube.com".toList) = "youtube.com".toList := by decide
  simp only [hhost]
  rw [if_neg (by decide), if_pos (by decide)]
  -- getParam ('v' :: '=' :: X) ['v'] = some X
  have hsplit : splitList '&' ('v' :: '=' :: X) = [('v' :: '=' :: X : List Char)] := by
    apply splitList_of_all
    intro x hx
    rcases List.mem_cons.mp hx with h | h
    · rw [h]; decide
    rcases List.mem_cons.mp h with h | h
    · rw [h]; decide
    · exact idChar_ne (hX x h) '&' (by decide)
  have hkeytake : ('v' :: '=' :: X).takeWhile (fun c => !(c = '=')) = ['v'] :=
    takeWhile_middle _ ['v'] '=' X (by decide) (by decide)
  have hkeydrop : ('v' :: '=' :: X).dropWhile (fun c => !(c = '=')) = '=' :: X :=
    dropWhile_middle _ ['v'] '=' X (by decide) (by decide)
  unfold getParam
  rw [hsplit]
  simp only [List.filter, List.isEmpty, Bool.not_false, List.find?, hkeytake, hkeydrop]
  rcases X with _ | ⟨x, xs⟩
  · exact absurd rfl h0
  · simp

theorem parseYT_chars_embed (X : List Char) (hX : ∀ c ∈ X, isIdChar c = true)
    (h0 : X ≠ []) :
    parseYouTubeChars ("https://youtube.com/embed/".toList ++ X) = some X := by
  have hkey : "https://youtube.com/embed/".toList ++ X =
      "https://".toList ++ ("youtube.com".toList ++ '/' ::
        ("embed".toList ++ '/' :: X)) := by
    have h1 : "https://youtube.com/embed/".toList =
        "https://".toList ++ ("youtube.com".toList ++ '/' ::
          ("embed".toList ++ '/' :: ([] : List Char))) := by decide
    rw [h1]; simp [List.append_assoc]
  rw [hkey]
  have hne : ("https://".toList : List Char) ++ ("youtube.com".toList ++ '/' ::
      ("embed".toList ++ '/' :: X)) ≠ [] := by simp
  have hws : ∀ c ∈ ("https://".toList : List Char) ++ ("youtube.com".toList ++ '/' ::
      ("embed".toList ++ '/' :: X)), wsChar c = false := by
    intro c hc
    rcases List.mem_append.mp hc with h | h
    · exact (by decide : ∀ c ∈ ("https://".toList : List Char), wsChar c = false) c h
    rcases List.mem_append.mp h with h | h
    · exact (by decide : ∀ c ∈ ("youtube.com".toList : List Char), wsChar c = false) c h
    rcases List.mem_cons.mp h with h | h
    · rw [h]; decide
    rcases List.mem_append.mp h with h | h
    · exact (by decide : ∀ c ∈ ("embed".toList : List Char), wsChar c = false) c h
    rcases List.mem_cons.mp h with h | h
    · rw [h]; decide
    · exact idChar_not_ws (hX c h)
  have htrim := trimChars_of_all _ hws
  have hurl := urlParseChars_build ("youtube.com".toList)
    ("embed".toList ++ '/' :: X)
    (by decide) (by decide) (by decide) (by decide) (by decide)
  have hpq : ∀ x ∈ ("embed".toList : List Char) ++ '/' :: X,
      (fun c => !(c = '?' || c = '#')) x = true := by
    intro x hx
    rcases List.mem_append.mp hx with h | h
    · exact (by decide : ∀ c ∈ ("embed".toList : List Char), (!(c = '?' || c = '#')) = true) x h
    rcases List.mem_cons.mp h with h | h
    · rw [h]; decide
    · simp [idChar_ne (hX x h) '?' (by decide), idChar_ne (hX x h) '#' (by decide)]
  have hRtake := takeWhile_of_all _ _ hpq
  have hRdrop := dropWhile_of_all _ _ hpq
  unfold parseYouTubeChars
  rw [isEmpty_false_of_ne hne]
  simp only [Bool.false_eq_true, if_false, htrim]
  rw [isEmpty_false_of_ne hne]
  simp only [Bool.false_eq_true, if_false, hurl, hRtake, hRdrop]
  unfold ytFromURL
  have hhost : normHost ("youtube.com".toList) = "youtube.com".toList := by decide
  simp only [hhost]
  rw [if_neg (by decide), if_pos (by decide)]
  have hgp : getParam ([] : List Char) ['v'] = none := by decide
  rw [hgp]
  have hseg : pathSegments ('/' :: ("embed".toList ++ '/' :: X)) =
      ["embed".toList, X] := by
    unfold pathSegments
    have h2 : ('/' :: ("embed".toList ++ '/' :: X) : List Char) =
        [] ++ '/' :: ("embed".toList ++ '/' :: X) := rfl
    rw [h2, splitList_middle '/' [] _ (by intro x hx; cases hx),
      splitList_middle '/' ("embed".toList) X
        (by intro x hx; exact (by decide : ∀ c ∈ ("embed".toList : List Char), c ≠ '/') x hx),
      splitList_of_all '/' X (fun x hx => idChar_ne (hX x hx) '/' (by decide))]
    simp [isEmpty_false_of_ne h0]
  rw [hseg]
  simp only [ytMarkers, segAfterNE, segAfter, if_pos rfl, List.head?]
  simp [isEmpty_false_of_ne h0]

theorem parseYT_chars_shorts (X : List Char) (hX : ∀ c ∈ X, isIdChar c = true)
    (h0 : X ≠ []) (hnm : X ≠ "embed".toList) :
    parseYouTubeChars ("https://youtube.com/shorts/".toList ++ X) = some X := by
  have hkey : "https://youtube.com/shorts/".toList ++ X =
      "https://".toList ++ ("youtube.com".toList ++ '/' ::
        ("shorts".toList ++ '/' :: X)) := by
    have h1 : "https://youtube.com/shorts/".toList =
        "https://".toList ++ ("youtube.com".toList ++ '/' ::
          ("shorts".toList ++ '/' :: ([] : List Char))) := by decide
    rw [h1]; simp [List.append_assoc]
  rw [hkey]
  have hne : ("https://".toList : List Char) ++ ("youtube.com".toList ++ '/' ::
      ("shorts".toList ++ '/' :: X)) ≠ [] := by simp
  have hws : ∀ c ∈ ("https://".toList : List Char) ++ ("youtube.com".toList ++ '/' ::
      ("shorts".toList ++ '/' :: X)), wsChar c = false := by
    intro c hc
    rcases List.mem_append.mp hc with h | h
    · exact (by decide : ∀ c ∈ ("https://".toList : List Char), wsChar c = false) c h
    rcases List.mem_append.mp h with h | h
    · exact (by decide : ∀ c ∈ ("youtube.com".toList : List Char), wsChar c = false) c h
    rcases List.mem_cons.mp h with h | h
    · rw [h]; decide
    rcases List.mem_append.mp h with h | h
    · exact (by decide : ∀ c ∈ ("shorts".toList : List Char), wsChar c = false) c h
    rcases List.mem_cons.mp h with h | h
    · rw [h]; decide
    · exact idChar_not_ws (hX c h)
  have htrim := trimChars_of_all _ hws
  have hurl := urlParseChars_build ("youtube.com".toList)
    ("shorts".toList ++ '/' :: X)
    (by decide) (by decide) (by decide) (by decide) (by decide)
  have hpq : ∀ x ∈ ("shorts".toList : List Char) ++ '/' :: X,
      (fun c => !(c = '?' || c = '#')) x = true := by
    intro x hx
    rcases List.mem_append.mp hx with h | h
    · exact (by decide : ∀ c ∈ ("shorts".toList : List Char), (!(c = '?' || c = '#')) = true) x h
    rcases List.mem_cons.mp h with h | h
    · rw [h]; decide
    · simp [idChar_ne (hX x h) '?' (by decide), idChar_ne (hX x h) '#' (by decide)]
  have hRtake := takeWhile_of_all _ _ hpq
  have hRdrop := dropWhile_of_all _ _ hpq
  unfold parseYouTubeChars
  rw [isEmpty_false_of_ne hne]
  simp only [Bool.false_eq_true, if_false, htrim]
  rw [isEmpty_false_of_ne hne]
  simp only [Bool.false_eq_true, if_false, hurl, hRtake, hRdrop]
  unfold ytFromURL
  have hhost : normHost ("youtube.com".toList) = "youtube.com".toList := by decide
  simp only [hhost]
  rw [if_neg (by decide), if_pos (by decide)]
  have hgp : getParam ([] : List Char) ['v'] = none := by decide
  rw [hgp]
  have hseg : pathSegments ('/' :: ("shorts".toList ++ '/' :: X)) =
      ["shorts".toList, X] := by
    unfold pathSegments
    have h2 : ('/' :: ("shorts".toList ++ '/' :: X) : List Char) =
        [] ++ '/' :: ("shorts".toList ++ '/' :: X) := rfl
    rw [h2, splitList_middle '/' [] _ (by intro x hx; cases hx),
      splitList_middle '/' ("shorts".toList) X
        (by intro x hx; exact (by decide : ∀ c ∈ ("shorts".toList : List Char), c ≠ '/') x hx),
      splitList_of_all '/' X (fun x hx => idChar_ne (hX x hx) '/' (by decide))]
    simp [isEmpty_false_of_ne h0]
  rw [hseg]
  simp only [ytMarkers, segAfterNE, segAfter,
    if_neg (by decide : ¬ ("shorts".toList : List Char) = "embed".toList),
    if_neg hnm, if_pos rfl, List.head?]
  simp [isEmpty_false_of_ne h0]

theorem parseYT_chars_token (X : List Char) (hX : ∀ c ∈ X, isIdChar c = true)
    (h11 : X.length = 11) :
    parseYouTubeChars X = some X := by
  have h0 : X ≠ [] := by
    intro e; rw [e] at h11; cases h11
  have htrim : trimChars X = X :=
    trimChars_of_all X fun x hx => idChar_not_ws (hX x hx)
  have hp1 : ("https://".toList : List Char).isPrefixOf X = false := by
    cases hb : ("https://".toList : List Char).isPrefixOf X with
    | false => rfl
    | true =>
      have hm := mem_of_isPrefixOf hb ':' (by decide)
      exact absurd (hX ':' hm) (by decide)
  have hp2 : ("http://".toList : List Char).isPrefixOf X = false := by
    cases hb : ("http://".toList : List Char).isPrefixOf X with
    | false => rfl
    | true =>
      have hm := mem_of_isPrefixOf hb ':' (by decide)
      exact absurd (hX ':' hm) (by decide)
  have hurl : urlParseChars X = none := by
    unfold urlParseChars
    simp only [hp1, hp2, Bool.false_eq_true, if_false]
  have htok : isIdToken X = true := by
    unfold isIdToken
    rw [h11]
    rw [(by decide : (11 == 11) = true), Bool.true_and, List.all_eq_true]
    exact fun x hx => hX x hx
  unfold parseYouTubeChars
  rw [isEmpty_false_of_ne h0]
  simp only [Bool.false_eq_true, if_false, htrim, hurl, htok]
  rw [isEmpty_false_of_ne h0]
  simp [htok]

theorem parseYT_of_parsed {l : List Char} {u : URLParts}
    (h : urlParseChars (trimChars l) = some u) :
    parseYouTubeChars l = ytFromURL u := by
  have hl : l ≠ [] := by
    intro e; subst e
    rw [(by decide : trimChars [] = ([] : List Char)),
      (by decide : urlParseChars [] = none)] at h
    cases h
  have ht : trimChars l ≠ [] := by
    intro e
    rw [e, (by decide : urlParseChars [] = none)] at h
    cases h
  unfold parseYouTubeChars
  rw [isEmpty_false_of_ne hl]
  simp only [Bool.false_eq_true, if_false]
  rw [isEmpty_false_of_ne ht]
  simp only [Bool.false_eq_true, if_false, h]


/-! ## Claims -/

/-- C1: the authenticated-guard passes iff the session carries a
non-null user record and otherwise redirects to /login; the
admin-guard agrees with the authenticated-guard whenever that guard
fails, and on an authenticated session passes iff the role equals
"admin", answering a 403 Forbidden on role failure; whenever a guard
halts, the dispatched response is the guard's for every handler, so
the route handler body is never executed. -/
theorem requireAuth_requireAdmin_spec :
    (∀ sess : Option Sess,
      (requireAuth sess = .next ↔ ∃ s u, sess = some s ∧ s.user = some u)) ∧
    (∀ sess : Option Sess, requireAuth sess ≠ .next →
      requireAuth sess = .halt (.redirect "/login")) ∧
    (∀ sess : Option Sess, requireAuth sess ≠ .next →
      requireAdmin sess = requireAuth sess) ∧
    (∀ (s : Sess) (u : SessionUser), s.user = some u →
      (requireAdmin (some s) = .next ↔ u.role = "admin") ∧
      (u.role ≠ "admin" → requireAdmin (some s) = .halt (.forbidden "Forbidden"))) ∧
    (∀ (g : Option Sess → GuardResult) (h : Option Sess → Response)
      (sess : Option Sess) (r : Response), g sess = .halt r → runGuarded g h sess = r) := by
  refine ⟨?_, ?_, ?_, ?_, ?_⟩
  · intro sess
    match sess with
    | none => simp [requireAuth]
    | some s =>
      match hu : s.user with
      | none => simp [requireAuth, hu]
      | some u =>
        simp only [requireAuth, hu]
        constructor
        · intro _
          exact ⟨s, u, rfl, hu⟩
        · intro _
          trivial
  · intro sess h
    match sess with
    | none => rfl
    | some s =>
      match hu : s.user with
      | none => simp [requireAuth, hu]
      | some u => exact absurd (by simp [requireAuth, hu]) h
  · intro sess h
    match sess with
    | none => rfl
    | some s =>
      match hu : s.user with
      | none => simp [requireAuth, requireAdmin, hu]
      | some u => exact absurd (by simp [requireAuth, hu]) h
  · intro s u hu
    constructor
    · by_cases hr : u.role = "admin"
      · simp [requireAdmin, hu, hr]
      · simp [requireAdmin, hu, hr]
    · intro hr
      simp [requireAdmin, hu, hr]
  · intro g h sess r hg
    unfold runGuarded
    rw [hg]

/-- Witness for C1 at concrete sessions: a student session fails the
admin-guard with a 403 Forbidden. -/
theorem requireAuth_requireAdmin_spec_witness :
    (Sess.mk (some ⟨7, "s@c.com", "student"⟩)).user = some ⟨7, "s@c.com", "student"⟩ ∧
    ("student" : String) ≠ "admin" ∧
    requireAdmin (some (Sess.mk (some ⟨7, "s@c.com", "student"⟩))) =
      .halt (.forbidden "Forbidden") :=
  ⟨rfl, by decide,
    (requireAuth_requireAdmin_spec.2.2.2.1 _ ⟨7, "s@c.com", "student"⟩ rfl).2 (by decide)⟩

/-- C2: deleting a module whose id exists removes that module and
every lesson referencing it and keeps all other rows; deleting a
nonexistent module id leaves the store untouched; both cases answer a
redirect to /admin (no error response). -/
theorem deleteModule_cascade_spec :
    ∀ (st : DB) (s : String) (mid : ℤ), jsNumber s = JSNum.val (mid : ℚ) →
      (deleteModuleHandler st s).2 = .redirect "/admin" ∧
      ((∀ m ∈ st.modules, m.id ≠ mid) → (deleteModuleHandler st s).1 = st) ∧
      ((∃ m ∈ st.modules, m.id = mid) →
        (∀ m ∈ (deleteModuleHandler st s).1.modules, m.id ≠ mid) ∧
        (∀ l ∈ (deleteModuleHandler st s).1.lessons, l.module_id ≠ mid) ∧
        (∀ m ∈ st.modules, m.id ≠ mid → m ∈ (deleteModuleHandler st s).1.modules) ∧
        (∀ l ∈ st.lessons, l.module_id ≠ mid → l ∈ (deleteModuleHandler st s).1.lessons)) := by
  intro st s mid hn
  have hmatch : ∀ i : ℤ, numMatches (jsNumber s) i = decide (mid = i) := by
    intro i
    rw [hn]
    unfold numMatches
    simp [Int.cast_inj]
  refine ⟨rfl, ?_, ?_⟩
  · intro hno
    unfold deleteModuleHandler deleteModuleCascade
    have h1 : st.modules.filter (fun m => !(numMatches (jsNumber s) m.id)) = st.modules := by
      apply List.filter_eq_self.mpr
      intro m hm
      rw [hmatch m.id]
      simp [Ne.symm (hno m hm)]
    have h2 : st.modules.filter (fun m => numMatches (jsNumber s) m.id) = [] := by
      apply List.filter_eq_nil_iff.mpr
      intro m hm
      rw [hmatch m.id]
      simp [Ne.symm (hno m hm)]
    simp only [h1, h2, List.map_nil]
    have h3 : st.lessons.filter (fun l => !(([] : List ℤ).contains l.module_id)) = st.lessons := by
      apply List.filter_eq_self.mpr
      intro l hl
      rfl
    simp only [h3]
  · intro hex
    refine ⟨?_, ?_, ?_, ?_⟩
    · intro m hm e
      unfold deleteModuleHandler deleteModuleCascade at hm
      simp only at hm
      have hpred := List.of_mem_filter hm
      rw [hmatch m.id] at hpred
      simp [e] at hpred
    · intro l hl e
      unfold deleteModuleHandler deleteModuleCascade at hl
      simp only at hl
      have hpred := List.of_mem_filter hl
      rcases hex with ⟨m, hm, hmid⟩
      have hmem : l.module_id ∈ (st.modules.filter
          (fun m => numMatches (jsNumber s) m.id)).map (fun m => m.id) := by
        refine List.mem_map.mpr ⟨m, List.mem_filter.mpr ⟨hm, ?_⟩, by rw [hmid, e]⟩
        rw [hmatch m.id, hmid]
        simp
      have hc : ((st.modules.filter
          (fun m => numMatches (jsNumber s) m.id)).map (fun m => m.id)).contains
            l.module_id = true := by
        simpa using hmem
      rw [hc] at hpred
      cases hpred
    · intro m hm hne
      unfold deleteModuleHandler deleteModuleCascade
      simp only
      refine List.mem_filter.mpr ⟨hm, ?_⟩
      rw [hmatch m.id]
      simp only [Bool.not_eq_true', decide_eq_false_iff_not]
      exact fun e => hne e.symm
    · intro l hl hne
      unfold deleteModuleHandler deleteModuleCascade
      simp only
      refine List.mem_filter.mpr ⟨hl, ?_⟩
      have hnm : l.module_id ∉ (st.modules.filter
          (fun m => numMatches (jsNumber s) m.id)).map (fun m => m.id) := by
        intro hmem
        rcases List.mem_map.mp hmem with ⟨m, hmf, hid⟩
        have hq := (List.mem_filter.mp hmf).2
        rw [hmatch m.id] at hq
        have he : mid = m.id := by simpa using hq
        exact hne (by rw [← hid, ← he])
      simpa using hnm

/-- Witness for C2: deleting module 1 of the sample store removes the
module and its lesson. -/
theorem deleteModule_cascade_spec_witness :
    jsNumber "1" = JSNum.val ((1 : ℤ) : ℚ) ∧
    (∃ m ∈ sampleDB.modules, m.id = 1) ∧
    (∀ m ∈ (deleteModuleHandler sampleDB "1").1.modules, m.id ≠ 1) ∧
    (∀ l ∈ (deleteModuleHandler sampleDB "1").1.lessons, l.module_id ≠ 1) :=
  ⟨by decide, ⟨⟨1, "Module 1", "intro", .val 1⟩, by decide, rfl⟩,
    ((deleteModule_cascade_spec sampleDB "1" 1 (by decide)).2.2
      ⟨⟨1, "Module 1", "intro", .val 1⟩, by decide, rfl⟩).1,
    ((deleteModule_cascade_spec sampleDB "1" 1 (by decide)).2.2
      ⟨⟨1, "Module 1", "intro", .val 1⟩, by decide, rfl⟩).2.1⟩

/-- C3 counterexample: with title "T" and sort_order "abc" the trimmed
title is non-empty, yet the module-create request inserts nothing and
does not redirect — the coerced sort is NaN, the INSERT binds it as
NULL against the NOT NULL sort_order column, the statement throws and
the response is the 500 error, refuting "performs exactly one insert
and responds with a redirect to /admin" for every non-empty title. -/
theorem createModule_insert_cex :
    strTrim (strField (ReqBody.mk (some "T") none (some "abc") none none none none).title) ≠ "" ∧
    (createModuleHandler sampleDB
      (ReqBody.mk (some "T") none (some "abc") none none none none)).1.modules =
      sampleDB.modules ∧
    (createModuleHandler sampleDB
      (ReqBody.mk (some "T") none (some "abc") none none none none)).2 ≠
      Response.redirect "/admin" := by
  decide

/-- C3 amended: an empty trimmed title re-renders the new-module form
with the parsed submitted values (trimmed strings, coerced sort order)
and an inline error and performs no mutation; a non-empty trimmed
title whose coerced sort order is storable (binds as a numeric, not
NaN) appends exactly one row to the modules table, touches nothing
else, and redirects to /admin; a non-empty title whose coerced sort is
NaN makes the INSERT fail on the NOT NULL constraint: nothing is
inserted and the response is the server error. -/
theorem createModule_validation_amended :
    ∀ (st : DB) (body : ReqBody),
      (strTrim (strField body.title) = "" →
        (createModuleHandler st body).1 = st ∧
        (createModuleHandler st body).2 =
          .moduleFormPage "new"
            ⟨none, strTrim (strField body.title), strTrim (strField body.description),
              coerceNum body.sort_order⟩ (some "Title is required.")) ∧
      (strTrim (strField body.title) ≠ "" →
        (∀ sq, bindSort (coerceNum body.sort_order) = some sq →
          (createModuleHandler st body).1.modules =
            st.modules ++ [⟨st.nextModuleId, strTrim (strField body.title),
              strTrim (strField body.description), sq⟩] ∧
          (createModuleHandler st body).1.lessons = st.lessons ∧
          (createModuleHandler st body).1.users = st.users ∧
          (createModuleHandler st body).2 = .redirect "/admin") ∧
        (bindSort (coerceNum body.sort_order) = none →
          (createModuleHandler st body).1 = st ∧
          (createModuleHandler st body).2 = .serverError)) := by
  intro st body
  constructor
  · intro h
    unfold createModuleHandler
    rw [if_pos h]
    exact ⟨rfl, by rw [h]⟩
  · intro h
    constructor
    · intro sq hsq
      unfold createModuleHandler
      rw [if_neg h, hsq]
      exact ⟨rfl, rfl, rfl, rfl⟩
    · intro hbn
      unfold createModuleHandler
      rw [if_neg h, hbn]
      exact ⟨rfl, rfl⟩

/-- Witness for C3 amended at concrete requests: whitespace title
mutates nothing; title "T" with sort "3" inserts exactly one row and
redirects. -/
theorem createModule_validation_amended_witness :
    strTrim (strField (ReqBody.mk (some "  ") (some "d") (some "3") none none none none).title) = "" ∧
    (createModuleHandler sampleDB
      (ReqBody.mk (some "  ") (some "d") (some "3") none none none none)).1 = sampleDB ∧
    strTrim (strField (ReqBody.mk (some "T") none (some "3") none none none none).title) ≠ "" ∧
    bindSort (coerceNum (ReqBody.mk (some "T") none (some "3") none none none none).sort_order) =
      some (SQLNum.val 3) ∧
    (createModuleHandler sampleDB
      (ReqBody.mk (some "T") none (some "3") none none none none)).1.modules =
      sampleDB.modules ++ [⟨2, "T", "", SQLNum.val 3⟩] ∧
    (createModuleHandler sampleDB
      (ReqBody.mk (some "T") none (some "3") none none none none)).2 = .redirect "/admin" := by
  refine ⟨by decide, ((createModule_validation_amended sampleDB _).1 (by decide)).1,
    by decide, by decide, ?_, ?_⟩
  · have h := (((createModule_validation_amended sampleDB
      (ReqBody.mk (some "T") none (some "3") none none none none)).2 (by decide)).1
      (SQLNum.val 3) (by decide)).1
    rw [h]
    decide
  · exact (((createModule_validation_amended sampleDB
      (ReqBody.mk (some "T") none (some "3") none none none none)).2 (by decide)).1
      (SQLNum.val 3) (by decide)).2.2.2


/-- C4: every 11-character token X over [A-Za-z0-9_-] is recovered
from the watch?v=, youtu.be, embed and shorts URL forms and from the
bare token itself. -/
theorem parseYouTube_canonical_forms :
    ∀ X : String, X.length = 11 → X.toList.all isIdChar = true →
      parseYouTube ("https://www.youtube.com/watch?v=" ++ X) = some X ∧
      parseYouTube ("https://youtu.be/" ++ X) = some X ∧
      parseYouTube ("https://youtube.com/embed/" ++ X) = some X ∧
      parseYouTube ("https://youtube.com/shorts/" ++ X) = some X ∧
      parseYouTube X = some X := by
  intro X hlen hall
  have hX : ∀ c ∈ X.toList, isIdChar c = true := List.all_eq_true.mp hall
  have hlen2 : X.toList.length = 11 := hlen
  have h0 : X.toList ≠ [] := by
    intro e
    rw [e] at hlen2
    cases hlen2
  have hnm : X.toList ≠ "embed".toList := by
    intro e
    rw [e] at hlen2
    exact absurd hlen2 (by decide)
  refine ⟨?_, ?_, ?_, ?_, ?_⟩
  · unfold parseYouTube
    rw [toList_append, parseYT_chars_watch X.toList hX h0]
    rfl
  · unfold parseYouTube
    rw [toList_append, parseYT_chars_be X.toList hX h0]
    rfl
  · unfold parseYouTube
    rw [toList_append, parseYT_chars_embed X.toList hX h0]
    rfl
  · unfold parseYouTube
    rw [toList_append, parseYT_chars_shorts X.toList hX h0 hnm]
    rfl
  · unfold parseYouTube
    rw [parseYT_chars_token X.toList hX hlen2]
    rfl

/-- Witness for C4 at the token dQw4w9WgXcQ. -/
theorem parseYouTube_canonical_forms_witness :
    ("dQw4w9WgXcQ" : String).length = 11 ∧
    ("dQw4w9WgXcQ" : String).toList.all isIdChar = true ∧
    parseYouTube ("https://youtu.be/" ++ "dQw4w9WgXcQ") = some "dQw4w9WgXcQ" :=
  ⟨by decide, by decide,
    (parseYouTube_canonical_forms "dQw4w9WgXcQ" (by decide) (by decide)).2.1⟩

/-- C8: on a parsed URL whose normalized host is youtu.be, the
normalizer returns the first non-empty path segment, and no match when
every segment is empty. -/
theorem youtuBe_firstSegment_spec :
    ∀ (s : String) (u : URLParts),
      urlParseChars (trimChars s.toList) = some u →
      normHost u.hostname = "youtu.be".toList →
      parseYouTube s = ((pathSegments u.pathname).head?).map String.mk ∧
      (pathSegments u.pathname = [] → parseYouTube s = none) := by
  intro s u hp hh
  have hb := parseYT_of_parsed hp
  unfold parseYouTube
  rw [hb]
  unfold ytFromURL
  rw [hh, if_pos rfl]
  cases hl : pathSegments u.pathname with
  | nil =>
    exact ⟨rfl, fun _ => rfl⟩
  | cons a t =>
    have ha : a ∈ (splitList '/' u.pathname).filter (fun x => !x.isEmpty) := by
      have : a ∈ pathSegments u.pathname := by
        rw [hl]
        exact List.mem_cons_self a t
      exact this
    have hpred : (!a.isEmpty) = true := (List.mem_filter.mp ha).2
    have hne2 : a.isEmpty = false := by simpa using hpred
    constructor
    · simp [hne2]
    · intro h
      cases h

/-- Witness for C8 on a parsed youtu.be URL. -/
theorem youtuBe_firstSegment_spec_witness :
    urlParseChars (trimChars ("https://youtu.be/abc".toList)) =
      some ⟨"youtu.be".toList, "/abc".toList, []⟩ ∧
    normHost ("youtu.be".toList) = "youtu.be".toList ∧
    parseYouTube "https://youtu.be/abc" =
      ((pathSegments ("/abc".toList)).head?).map String.mk :=
  ⟨by decide, by decide,
    (youtuBe_firstSegment_spec "https://youtu.be/abc"
      ⟨"youtu.be".toList, "/abc".toList, []⟩ (by decide) (by decide)).1⟩

/-- C7 counterexample: the normalizer can return a token that is not
11 characters long ("abc" from https://youtu.be/abc), so "returns an
11-character video-id-shaped token or no match" fails as stated. -/
theorem parseYouTube_tokenLength_cex :
    parseYouTube "https://youtu.be/abc" = some "abc" ∧
    ("abc" : String).length ≠ 11 := by decide

/-- C7 amended: the normalizer is a total function returning a token
string or no match (never throwing, modelled by totality); only the
direct-id fallback taken on URL-parse failure guarantees the
11-character shape; "", null and https://vimeo.com/123 all yield no
match. -/
theorem parseYouTube_total_amended :
    parseYouTubeOpt none = none ∧
    parseYouTube "" = none ∧
    parseYouTube "https://vimeo.com/123" = none ∧
    (∀ (s t : String), urlParseChars (trimChars s.toList) = none →
      parseYouTube s = some t → isIdToken t.toList = true) := by
  refine ⟨rfl, by decide, by decide, ?_⟩
  intro s t hu hp
  unfold parseYouTube at hp
  by_cases h0 : s.toList = []
  · rw [h0, (by decide : parseYouTubeChars [] = none)] at hp
    cases hp
  · by_cases h1 : trimChars s.toList = []
    · unfold parseYouTubeChars at hp
      rw [isEmpty_false_of_ne h0] at hp
      simp only [Bool.false_eq_true, if_false] at hp
      rw [h1] at hp
      simp at hp
    · unfold parseYouTubeChars at hp
      rw [isEmpty_false_of_ne h0] at hp
      simp only [Bool.false_eq_true, if_false] at hp
      rw [isEmpty_false_of_ne h1, hu] at hp
      by_cases ht : isIdToken (trimChars s.toList) = true
      · rw [if_pos ht] at hp
        simp only [Option.map_some] at hp
        have hmk : String.mk (trimChars s.toList) = t := by
          injection hp
        rw [← hmk, toList_mk]
        exact ht
      · rw [if_neg ht] at hp
        cases hp

/-- Witness for C7 amended: a bare 11-character token goes through the
fallback and satisfies the id shape. -/
theorem parseYouTube_total_amended_witness :
    urlParseChars (trimChars ("dQw4w9WgXcQ" : String).toList) = none ∧
    parseYouTube "dQw4w9WgXcQ" = some "dQw4w9WgXcQ" ∧
    isIdToken ("dQw4w9WgXcQ" : String).toList = true :=
  ⟨by decide, by decide,
    parseYouTube_total_amended.2.2.2 "dQw4w9WgXcQ" "dQw4w9WgXcQ" (by decide) (by decide)⟩


/-- C6 counterexample: in
https://youtube.com/embed/abcdefghijk?v= the v query parameter is
present (with an empty value) in the parsed URL, yet the normalizer
answers the embed path segment instead of preferring v, so "prefers
the v query parameter when present" fails as stated. -/
theorem ytBranch_vparam_cex :
    urlParseChars (trimChars ("https://youtube.com/embed/abcdefghijk?v=".toList)) =
      some ⟨"youtube.com".toList, "/embed/abcdefghijk".toList, "v=".toList⟩ ∧
    getParam ("v=".toList) ['v'] = some [] ∧
    parseYouTube "https://youtube.com/embed/abcdefghijk?v=" = some "abcdefghijk" := by
  decide

/-- C6 amended: on a host ending in youtube.com the normalizer prefers
the v query parameter when it is present with a non-empty value; when
v is absent or present-but-empty it runs the marker scan, which
resolves embed before shorts before live, each marker counting only
when a following segment exists. -/
theorem ytBranch_priority_amended :
    (∀ (s : String) (u : URLParts),
      urlParseChars (trimChars s.toList) = some u →
      ("youtube.com".toList).isSuffixOf (normHost u.hostname) = true →
      (∀ v, getParam u.search ['v'] = some v → v ≠ [] →
        parseYouTube s = some (String.mk v)) ∧
      (getParam u.search ['v'] = none ∨ getParam u.search ['v'] = some [] →
        parseYouTube s = (ytMarkers (pathSegments u.pathname)).map String.mk)) ∧
    (∀ (parts : List (List Char)) (t : List Char),
      segAfterNE parts ("embed".toList) = some t → ytMarkers parts = some t) ∧
    (∀ (parts : List (List Char)) (t : List Char),
      segAfterNE parts ("embed".toList) = none →
      segAfterNE parts ("shorts".toList) = some t → ytMarkers parts = some t) ∧
    (∀ parts : List (List Char),
      segAfterNE parts ("embed".toList) = none →
      segAfterNE parts ("shorts".toList) = none →
      ytMarkers parts = segAfterNE parts ("live".toList)) := by
  refine ⟨?_, ?_, ?_, ?_⟩
  · intro s u hp hsuf
    have hb := parseYT_of_parsed hp
    have hnbe : ¬(normHost u.hostname = "youtu.be".toList) := by
      intro e
      rw [e] at hsuf
      exact absurd hsuf (by decide)
    constructor
    · intro v hv hvne
      unfold parseYouTube
      rw [hb]
      unfold ytFromURL
      rw [if_neg hnbe, if_pos hsuf, hv]
      have hvf : v.isEmpty = false := isEmpty_false_of_ne hvne
      simp [hvf]
    · intro hd
      unfold parseYouTube
      rw [hb]
      unfold ytFromURL
      rw [if_neg hnbe, if_pos hsuf]
      rcases hd with hd | hd
      · rw [hd]
      · rw [hd]
        rfl
  · intro parts t h
    unfold ytMarkers
    rw [h]
  · intro parts t h1 h2
    unfold ytMarkers
    rw [h1, h2]
  · intro parts h1 h2
    unfold ytMarkers
    rw [h1, h2]

/-- Witness for C6 amended: a watch URL with a non-empty v parameter
returns that parameter. -/
theorem ytBranch_priority_amended_witness :
    urlParseChars (trimChars ("https://youtube.com/watch?v=dQw4w9WgXcQ".toList)) =
      some ⟨"youtube.com".toList, "/watch".toList, "v=dQw4w9WgXcQ".toList⟩ ∧
    ("youtube.com".toList).isSuffixOf (normHost ("youtube.com".toList)) = true ∧
    getParam ("v=dQw4w9WgXcQ".toList) ['v'] = some ("dQw4w9WgXcQ".toList) ∧
    ("dQw4w9WgXcQ".toList : List Char) ≠ [] ∧
    parseYouTube "https://youtube.com/watch?v=dQw4w9WgXcQ" =
      some (String.mk ("dQw4w9WgXcQ".toList)) :=
  ⟨by decide, by decide, by decide, by decide,
    ((ytBranch_priority_amended.1 "https://youtube.com/watch?v=dQw4w9WgXcQ"
      ⟨"youtube.com".toList, "/watch".toList, "v=dQw4w9WgXcQ".toList⟩
      (by decide) (by decide)).1 ("dQw4w9WgXcQ".toList) (by decide) (by decide))⟩

/-- C5 counterexample: a non-numeric sort_order string ("abc")
coerces to NaN, not 0, and NaN is not storable (it binds as NULL
against the NOT NULL sort_order column): the module-create request
stores nothing and answers the 500 error, refuting "the value stored
for sort order is 0 and no error response is produced". -/
theorem sortOrder_coercion_cex :
    jsNumber "abc" = JSNum.nan ∧
    JSNum.nan ≠ JSNum.val 0 ∧
    bindSort JSNum.nan = none ∧
    (createModuleHandler sampleDB
      (ReqBody.mk (some "T") none (some "abc") none none none none)).1 =
      sampleDB ∧
    (createModuleHandler sampleDB
      (ReqBody.mk (some "T") none (some "abc") none none none none)).2 =
      .serverError := by
  decide

/-- C5 amended: numeric fields default to 0 only when missing or
empty; a non-empty non-numeric sort_order string coerces to NaN, which
the INSERT binds as NULL in violation of the NOT NULL sort_order
constraint: the statement throws, nothing is stored, and the request
is answered with the 500 server error instead of a redirect. -/
theorem sortOrder_coercion_amended :
    coerceNum none = JSNum.val 0 ∧
    coerceNum (some "") = JSNum.val 0 ∧
    (∀ s : String, s ≠ "" → coerceNum (some s) = jsNumber s) ∧
    (∀ (st : DB) (body : ReqBody) (s : String),
      body.sort_order = some s → s ≠ "" → jsNumber s = JSNum.nan →
      strTrim (strField body.title) ≠ "" →
      (createModuleHandler st body).1 = st ∧
      (createModuleHandler st body).2 = .serverError) := by
  refine ⟨rfl, rfl, ?_, ?_⟩
  · intro s hs
    simp [coerceNum, hs]
  · intro st body s hso hs hnan htitle
    have hc : coerceNum body.sort_order = JSNum.nan := by
      rw [hso]
      simp [coerceNum, hs, hnan]
    unfold createModuleHandler
    rw [if_neg htitle, hc]
    exact ⟨rfl, rfl⟩

/-- Witness for C5 amended at sort_order "abc". -/
theorem sortOrder_coercion_amended_witness :
    (ReqBody.mk (some "Ti") none (some "abc") none none none none).sort_order =
      some "abc" ∧
    ("abc" : String) ≠ "" ∧
    jsNumber "abc" = JSNum.nan ∧
    strTrim (strField (ReqBody.mk (some "Ti") none (some "abc") none none none none).title) ≠ "" ∧
    (createModuleHandler sampleDB
      (ReqBody.mk (some "Ti") none (some "abc") none none none none)).2 =
      .serverError :=
  ⟨rfl, by decide, by decide, by decide,
    (sortOrder_coercion_amended.2.2.2 sampleDB
      (ReqBody.mk (some "Ti") none (some "abc") none none none none) "abc"
      rfl (by decide) (by decide) (by decide)).2⟩

/-- C9: the login handler looks the user up by the trimmed, lowercased
submitted email; an unknown email or a failed hash comparison yields
the 401 login re-render with an error and leaves the session exactly
as it was; a successful comparison sets the session user to the stored
(id, email, role) and redirects to the home page.  Proved for every
hash-comparison function (bcrypt is external). -/
theorem login_spec :
    ∀ (compare : String → String → Bool) (st : DB) (sess : Sess) (body : ReqBody),
      (st.users.find? (fun u => u.email == strLower (strTrim (strField body.email))) =
          none →
        loginHandler compare st sess body =
          (sess, .loginPage true (some "Invalid email or password."))) ∧
      (∀ u, st.users.find?
          (fun u => u.email == strLower (strTrim (strField body.email))) = some u →
        (compare (strField body.password) u.password_hash = false →
          loginHandler compare st sess body =
            (sess, .loginPage true (some "Invalid email or password."))) ∧
        (compare (strField body.password) u.password_hash = true →
          loginHandler compare st sess body =
            (⟨some ⟨u.id, u.email, u.role⟩⟩, .redirect "/"))) := by
  intro compare st sess body
  constructor
  · intro h
    simp only [loginHandler]
    rw [h]
  · intro u hu
    constructor
    · intro hc
      simp only [loginHandler]
      rw [hu]
      simp only [hc]
      rfl
    · intro hc
      simp only [loginHandler]
      rw [hu]
      simp only [hc]
      rfl

/-- Witness for C9: the seeded admin logs in with a mixed-case padded
email and the session is established. -/
theorem login_spec_witness :
    sampleDB.users.find? (fun u => u.email == strLower (strTrim (strField
      (ReqBody.mk none none none none none (some " Admin@Course.com ") (some "h1")).email))) =
      some ⟨1, "admin@course.com", "h1", "admin"⟩ ∧
    (fun (p h : String) => p == h) "h1"
      (UserRow.password_hash ⟨1, "admin@course.com", "h1", "admin"⟩) = true ∧
    loginHandler (fun p h => p == h) sampleDB ⟨none⟩
      (ReqBody.mk none none none none none (some " Admin@Course.com ") (some "h1")) =
      (⟨some ⟨1, "admin@course.com", "admin"⟩⟩, .redirect "/") :=
  ⟨by decide, by decide,
    ((login_spec (fun p h => p == h) sampleDB ⟨none⟩
      (ReqBody.mk none none none none none (some " Admin@Course.com ") (some "h1"))).2
      ⟨1, "admin@course.com", "h1", "admin"⟩ (by decide)).2 (by decide)⟩

/-- C10: for an authenticated session, a non-numeric id parameter on
the module or lesson view coerces to NaN, whose bound value (NULL at
the storage layer) matches no row, so the handler answers the same
terminal 404 "not found" as a numeric id that matches no stored row;
no exception is involved (the handlers are total). -/
theorem nonNumericId_notFound_spec :
    ∀ (st : DB) (sess : Sess) (u : SessionUser) (s : String),
      sess.user = some u →
      (jsNumber s = JSNum.nan →
        runGuarded requireAuth (fun _ => moduleViewHandler st s) (some sess) =
          .notFound "Module not found" ∧
        runGuarded requireAuth (fun _ => lessonViewHandler st s) (some sess) =
          .notFound "Lesson not found") ∧
      (∀ q : ℚ, jsNumber s = JSNum.val q →
        ((∀ m ∈ st.modules, (m.id : ℚ) ≠ q) →
          runGuarded requireAuth (fun _ => moduleViewHandler st s) (some sess) =
            .notFound "Module not found") ∧
        ((∀ l ∈ st.lessons, (l.id : ℚ) ≠ q) →
          runGuarded requireAuth (fun _ => lessonViewHandler st s) (some sess) =
            .notFound "Lesson not found")) := by
  intro st sess u s hu
  have hguard : requireAuth (some sess) = .next := by
    simp [requireAuth, hu]
  have hrun : ∀ h : Option Sess → Response,
      runGuarded requireAuth h (some sess) = h (some sess) := by
    intro h
    unfold runGuarded
    rw [hguard]
  constructor
  · intro hnan
    constructor
    · rw [hrun]
      simp only [moduleViewHandler]
      have hfind : findModule st (jsNumber s) = none := by
        unfold findModule
        apply List.find?_eq_none.mpr
        intro m _
        rw [hnan]
        simp [numMatches]
      rw [hfind]
    · rw [hrun]
      simp only [lessonViewHandler]
      have hfind : findLesson st (jsNumber s) = none := by
        unfold findLesson
        apply List.find?_eq_none.mpr
        intro l _
        rw [hnan]
        simp [numMatches]
      rw [hfind]
  · intro q hq
    constructor
    · intro hno
      rw [hrun]
      simp only [moduleViewHandler]
      have hfind : findModule st (jsNumber s) = none := by
        unfold findModule
        apply List.find?_eq_none.mpr
        intro m hm
        rw [hq]
        unfold numMatches
        simp only [decide_eq_true_eq]
        exact fun e => hno m hm e.symm
      rw [hfind]
    · intro hno
      rw [hrun]
      simp only [lessonViewHandler]
      have hfind : findLesson st (jsNumber s) = none := by
        unfold findLesson
        apply List.find?_eq_none.mpr
        intro l hl
        rw [hq]
        unfold numMatches
        simp only [decide_eq_true_eq]
        exact fun e => hno l hl e.symm
      rw [hfind]

/-- Witness for C10: a student session requesting /modules/abc gets
the 404. -/
theorem nonNumericId_notFound_spec_witness :
    (Sess.mk (some ⟨9, "s@c.com", "student"⟩)).user = some ⟨9, "s@c.com", "student"⟩ ∧
    jsNumber "abc" = JSNum.nan ∧
    runGuarded requireAuth (fun _ => moduleViewHandler sampleDB "abc")
      (some (Sess.mk (some ⟨9, "s@c.com", "student"⟩))) = .notFound "Module not found" :=
  ⟨rfl, by decide,
    ((nonNumericId_notFound_spec sampleDB (Sess.mk (some ⟨9, "s@c.com", "student"⟩))
      ⟨9, "s@c.com", "student"⟩ "abc" rfl).1 (by decide)).1⟩

end Casac
